import Mathlib

/-!
Verification of the `podcasts` RSS feed generator.

The Go sources are embedded shallowly: pure functions become Lean functions,
in-place mutation becomes explicit state passing, machine integers restricted
to the non-negative ranges the properties quantify over become `Nat`, and the
reflection-driven `encoding/xml` marshalling of the fixed `Feed`/`Channel`/`Item`
schema becomes an explicit tree builder that follows the struct tags field by
field.
-/

namespace Podcasts

/-! ### Duration formatting (`formatDuration`, src/feed.go lines 63-83)

The Go function takes `total := int(d.Seconds())`; the properties under
verification quantify over durations that are a whole, non-negative number of
seconds, on which the `int` arithmetic agrees with `Nat` arithmetic, so the
embedding takes the total number of seconds as a `Nat`.  `strconv.Itoa`
becomes `Nat.repr`; the `strings.Builder` appends its pieces left to right,
which is the left-associated concatenation below (the leading empty builder
state is dropped, since `"" ++ s = s`). -/

def formatDuration (totalSeconds : Nat) : String :=
  let hours := totalSeconds / 3600
  let rem := totalSeconds % 3600
  let minutes := rem / 60
  let secs := rem % 60
  (if hours > 0 then Nat.repr hours ++ ":" else "") ++
    (if hours > 0 ∧ minutes < 10 then "0" else "") ++
    (Nat.repr minutes ++ ":") ++
    (if secs < 10 then "0" else "") ++
    Nat.repr secs

/-- Spec-side rendering of a number in exactly two digits (values below 100). -/
def twoDigits (n : Nat) : String :=
  (if n < 10 then "0" else "") ++ Nat.repr n

/-- C1. Duration formatting: for a whole number of non-negative seconds `s`,
the formatted string is `0:SS` (`SS` two digits) when `s < 60`, `M:SS`
(`M = s / 60` in natural width, no leading zero) when `60 ≤ s < 3600`, and
`H:MM:SS` when `s ≥ 3600`; together with the spec's concrete cases
`0s → "0:00"`, `6s → "0:06"`, `64s → "1:04"`, `125s → "2:05"`,
`3600s → "1:00:00"`, `37000s → "10:16:40"`, `25h30m45s = 91845s → "25:30:45"`. -/
theorem formatDuration_spec_cases (s : Nat) :
    (s < 60 → formatDuration s = "0:" ++ twoDigits s) ∧
    (60 ≤ s → s < 3600 →
      formatDuration s = Nat.repr (s / 60) ++ ":" ++ twoDigits (s % 60)) ∧
    (3600 ≤ s →
      formatDuration s =
        Nat.repr (s / 3600) ++ ":" ++ twoDigits (s % 3600 / 60) ++ ":" ++ twoDigits (s % 60)) ∧
    (∀ n, n < 60 → (twoDigits n).length = 2) ∧
    formatDuration 0 = "0:00" ∧ formatDuration 6 = "0:06" ∧
    formatDuration 64 = "1:04" ∧ formatDuration 125 = "2:05" ∧
    formatDuration 3600 = "1:00:00" ∧ formatDuration 37000 = "10:16:40" ∧
    formatDuration 91845 = "25:30:45" := by
  refine ⟨?_, ?_, ?_, ?_, by decide, by decide, by decide, by decide, by decide, by decide, by decide⟩
  · intro h
    have h1 : s / 3600 = 0 := Nat.div_eq_of_lt (by omega)
    have h2 : s % 3600 = s := Nat.mod_eq_of_lt (by omega)
    have h3 : s / 60 = 0 := Nat.div_eq_of_lt (by omega)
    have h4 : s % 60 = s := Nat.mod_eq_of_lt (by omega)
    have h0 : Nat.repr 0 = "0" := rfl
    simp only [formatDuration, twoDigits, h1, h2, h3, h4, h0, gt_iff_lt,
      Nat.lt_irrefl, if_false, false_and, String.empty_append]
    simp [String.append_assoc]
  · intro h60 h3600
    have h1 : s / 3600 = 0 := Nat.div_eq_of_lt (by omega)
    have h2 : s % 3600 = s := Nat.mod_eq_of_lt (by omega)
    simp only [formatDuration, twoDigits, h1, h2, gt_iff_lt, Nat.lt_irrefl,
      if_false, false_and, String.empty_append]
    simp [String.append_assoc]
  · intro h
    have h1 : 0 < s / 3600 := Nat.div_pos h (by omega)
    have hm : s % 3600 % 60 = s % 60 := Nat.mod_mod_of_dvd s (by norm_num)
    simp only [formatDuration, twoDigits, gt_iff_lt, h1, if_true, true_and, hm]
    simp [String.append_assoc]
  · decide

/-- Closed witness for `formatDuration_spec_cases`: instantiating it at 64
seconds discharges the hypotheses of the `M:SS` case. -/
theorem formatDuration_spec_cases_witness :
    (60 : Nat) ≤ 64 ∧ (64 : Nat) < 3600 ∧
      formatDuration 64 = Nat.repr (64 / 60) ++ ":" ++ twoDigits (64 % 60) :=
  ⟨by decide, by decide, (formatDuration_spec_cases 64).2.1 (by decide) (by decide)⟩

/-! ### Entity model (src/feed.go lines 85-167, src/podcast.go lines 3-11)

Go strings become `String`, nil-able pointers become `Option`, slices become
`List`.  Field order in each structure follows the Go struct declaration,
which is what drives `encoding/xml`'s output order. -/

def itunesXMLNS : String := "http://www.itunes.com/dtds/podcast-1.0.dtd"

def contentXMLNS : String := "http://purl.org/rss/1.0/modules/content/"

def rssVersion : String := "2.0"

structure CDATAText where
  value : String
deriving DecidableEq

structure ItunesOwner where
  name : String
  email : String
deriving DecidableEq

structure ItunesImage where
  href : String
deriving DecidableEq

inductive ItunesCategory where
  | mk (text : String) (categories : List ItunesCategory)

def ItunesCategory.text : ItunesCategory → String
  | .mk t _ => t

structure Enclosure where
  url : String
  length : String
  mimeType : String
deriving DecidableEq

/-- One channel item.  `pubDate` holds the already-formatted RFC-2822 text that
`PubDate.MarshalXML` emits as character data (`p.Format(rfc2822)`); no verified
property concerns the date computation itself.  `durationSeconds` holds the
whole non-negative second count that `Duration.MarshalXML` hands to
`formatDuration`. -/
structure Item where
  title : String := ""
  guid : String := ""
  pubDate : Option String := none
  description : Option CDATAText := none
  contentEncoded : Option CDATAText := none
  author : String := ""
  block : String := ""
  durationSeconds : Option Nat := none
  explicit : String := ""
  closedCaptioned : String := ""
  order : Int := 0
  subtitle : String := ""
  summary : Option CDATAText := none
  enclosure : Option Enclosure := none
  image : Option ItunesImage := none
deriving DecidableEq

structure Channel where
  title : String := ""
  link : String := ""
  copyright : String := ""
  language : String := ""
  description : String := ""
  author : String := ""
  block : String := ""
  explicit : String := ""
  complete : String := ""
  newFeedURL : String := ""
  subtitle : String := ""
  summary : Option CDATAText := none
  owner : Option ItunesOwner := none
  image : Option ItunesImage := none
  items : List Item := []
  categories : List ItunesCategory := []

structure Feed where
  itunesXMLNS : String := Podcasts.itunesXMLNS
  contentXMLNS : String := Podcasts.contentXMLNS
  version : String := rssVersion
  channel : Channel := {}

/-- The sentinel error values of the package (`ErrInvalidURL`,
`ErrInvalidImage`) plus arbitrary other errors an option may return. -/
inductive FeedError where
  | invalidURL
  | invalidImage
  | other (msg : String)
deriving DecidableEq

/-- A feed option is Go's `func(f *Feed) error`: it may mutate the feed and may
report an error, so the embedding returns the feed state it leaves behind
together with the optional error. -/
abbrev FeedOption : Type := Feed → Feed × Option FeedError

/-! ### `Feed.SetOptions` (src/feed.go lines 170-177) -/

/-- SetOptions loops over the options in order; on the first option returning
a non-nil error it returns that error immediately (the feed keeps whatever
state the options so far left it in). -/
def Feed.setOptions (f : Feed) : List FeedOption → Feed × Option FeedError
  | [] => (f, none)
  | opt :: rest =>
    match opt f with
    | (f', none) => Feed.setOptions f' rest
    | (f', some e) => (f', some e)

/-- The feed state after applying every option, errors disregarded. -/
def applyAll (f : Feed) (opts : List FeedOption) : Feed :=
  opts.foldl (fun g o => (o g).1) f

/-- Every option in the list succeeds when run in sequence from `f`. -/
def succeedsFrom : Feed → List FeedOption → Prop
  | _, [] => True
  | f, o :: rest => (o f).2 = none ∧ succeedsFrom (o f).1 rest

/-! ### `Podcast` (src/podcast.go) -/

/-- The podcast aggregate.  `itemsCap` is the ghost capacity of the Go backing
slice: it is unobservable through any accessor, and only steers which branch
`AddItemWithCapacity` takes.  Appends keep `itemsCap ≥ items.length`; the exact
growth factor of Go's `append` is immaterial to every observable property. -/
structure Podcast where
  title : String := ""
  description : String := ""
  link : String := ""
  language : String := ""
  copyright : String := ""
  items : List Item := []
  itemsCap : Nat := 0

/-- AddItem appends to the item slice. -/
def Podcast.addItem (p : Podcast) (item : Item) : Podcast :=
  { p with items := p.items ++ [item], itemsCap := max p.itemsCap (p.items.length + 1) }

/-- AddItemWithCapacity: when the current capacity is below `expectedTotal`,
allocate a backing array of capacity `expectedTotal`, copy the existing items
into it, then append. -/
def Podcast.addItemWithCapacity (p : Podcast) (item : Item) (expectedTotal : Nat) : Podcast :=
  let p' := if p.itemsCap < expectedTotal then { p with itemsCap := expectedTotal } else p
  { p' with items := p'.items ++ [item], itemsCap := max p'.itemsCap (p'.items.length + 1) }

/-- GetItemCount. -/
def Podcast.getItemCount (p : Podcast) : Nat := p.items.length

/-- The feed literal that `Podcast.Feed` builds before applying options
(src/podcast.go lines 20-32). -/
def Podcast.initialFeed (p : Podcast) : Feed :=
  { itunesXMLNS := itunesXMLNS, contentXMLNS := contentXMLNS, version := rssVersion,
    channel := { title := p.title, description := p.description, link := p.link,
                 copyright := p.copyright, language := p.language, items := p.items } }

/-- Podcast.Feed builds the feed, applies the options with `SetOptions`, and
returns the feed together with the error: `return feed, err` returns the feed
value even when an option failed. -/
def Podcast.feed (p : Podcast) (options : List FeedOption) : Feed × Option FeedError :=
  p.initialFeed.setOptions options

/-! ### The option constructors

Modelled from the spec: the option constructors (`Author`, `Block`, `Explicit`,
`Complete`, `NewFeedURL`, `Subtitle`, `Summary`, `Owner`, `Image`) and the
sentinel errors live in a source file that is absent from src — only their
tests and callers remain.  Per spec §4.3 each option mutates one channel field;
`NewFeedURL` and `Image` first validate that their argument parses as an
absolute URL (scheme and host present), rejecting relative paths and
unparseable strings, failing with the invalid-URL respectively invalid-image
error and leaving the feed unmodified.  The behaviour below also satisfies
every remaining test of the options (src/unnamed/part_000, part_001). -/

def ValueYes : String := "yes"

def isCtlChar (c : Char) : Bool := c.toNat < 32 || c.toNat == 127

def isSchemeChar (c : Char) : Bool :=
  c.isAlpha || c.isDigit || c == '+' || c == '-' || c == '.'

/-- Split a character list at the first `"://"`, returning the part before it
and the part after it. -/
def splitSchemeSep : List Char → Option (List Char × List Char)
  | [] => none
  | c :: cs =>
    if c = ':' ∧ cs.take 2 = ['/', '/'] then some ([], cs.drop 2)
    else
      match splitSchemeSep cs with
      | some (pre, post) => some (c :: pre, post)
      | none => none

/-- Modelled from the spec: a string is accepted as a URL iff it parses as an
absolute URL — a nonempty scheme of URL-scheme characters starting with a
letter, `"://"`, and a nonempty host — and contains no ASCII control
characters (which make a string unparseable). -/
def isAbsoluteURL (s : String) : Bool :=
  s.data.all (fun c => !isCtlChar c) &&
    match splitSchemeSep s.data with
    | none => false
    | some (scheme, rest) =>
      (match scheme with
       | [] => false
       | c :: _ => c.isAlpha) &&
      scheme.all isSchemeChar &&
      !(rest.takeWhile (fun c => c ≠ '/')).isEmpty

/-- Modelled from the spec: `Author(name)` sets the channel author, no
validation. -/
def Author (author : String) : FeedOption := fun f =>
  ({ f with channel := { f.channel with author := author } }, none)

/-- Modelled from the spec: `Block` sets the block flag to "yes". -/
def Block : FeedOption := fun f =>
  ({ f with channel := { f.channel with block := ValueYes } }, none)

/-- Modelled from the spec: `Explicit` sets the explicit flag to "yes". -/
def Explicit : FeedOption := fun f =>
  ({ f with channel := { f.channel with explicit := ValueYes } }, none)

/-- Modelled from the spec: `Complete` sets the completion flag to "yes". -/
def Complete : FeedOption := fun f =>
  ({ f with channel := { f.channel with complete := ValueYes } }, none)

/-- Modelled from the spec: `Subtitle(text)` sets the subtitle, no
validation. -/
def Subtitle (text : String) : FeedOption := fun f =>
  ({ f with channel := { f.channel with subtitle := text } }, none)

/-- Modelled from the spec: `Summary(text)` sets the summary as rich text. -/
def Summary (text : String) : FeedOption := fun f =>
  ({ f with channel := { f.channel with summary := some ⟨text⟩ } }, none)

/-- Modelled from the spec: `Owner(name, email)` sets the owner. -/
def Owner (name email : String) : FeedOption := fun f =>
  ({ f with channel := { f.channel with owner := some ⟨name, email⟩ } }, none)

/-- Modelled from the spec: `NewFeedURL(url)` validates the URL, then sets the
redirect URL; on failure it returns the invalid-URL error and leaves the feed
unmodified. -/
def NewFeedURL (rawURL : String) : FeedOption := fun f =>
  if isAbsoluteURL rawURL then
    ({ f with channel := { f.channel with newFeedURL := rawURL } }, none)
  else (f, some FeedError.invalidURL)

/-- Modelled from the spec: `Image(url)` validates the URL, then sets the
channel artwork; on failure it returns the invalid-image error (distinct from
the generic invalid-URL error) and leaves the feed unmodified. -/
def Image (href : String) : FeedOption := fun f =>
  if isAbsoluteURL href then
    ({ f with channel := { f.channel with image := some ⟨href⟩ } }, none)
  else (f, some FeedError.invalidImage)

/-! ### Option application lemmas -/

theorem setOptions_cons (f : Feed) (o : FeedOption) (rest : List FeedOption) :
    f.setOptions (o :: rest) =
      match o f with
      | (f', none) => f'.setOptions rest
      | (f', some e) => (f', some e) := rfl

theorem setOptions_append_ok :
    ∀ (pre : List FeedOption) (f g : Feed), f.setOptions pre = (g, none) →
      ∀ rest, f.setOptions (pre ++ rest) = g.setOptions rest := by
  intro pre
  induction pre with
  | nil =>
    intro f g h rest
    simp only [Feed.setOptions] at h
    cases h
    simp
  | cons o pre ih =>
    intro f g h rest
    rcases ho : o f with ⟨f', err⟩
    cases err with
    | none =>
      rw [setOptions_cons, ho] at h
      rw [List.cons_append, setOptions_cons, ho]
      exact ih f' g h rest
    | some e =>
      rw [setOptions_cons, ho] at h
      cases h

theorem setOptions_of_succeeds :
    ∀ (opts : List FeedOption) (f : Feed), succeedsFrom f opts →
      f.setOptions opts = (applyAll f opts, none) := by
  intro opts
  induction opts with
  | nil => intro f _; rfl
  | cons o rest ih =>
    intro f h
    obtain ⟨h1, h2⟩ := h
    rcases ho : o f with ⟨f', err⟩
    rw [ho] at h1 h2
    simp only at h1 h2
    cases h1
    rw [setOptions_cons, ho]
    simp only [applyAll, List.foldl_cons, ho]
    exact ih f' h2

/-- Emptily initialised feed (all Go zero values plus the constant namespace
and version attributes). -/
def emptyFeed : Feed := {}

/-- The always-failing option used by `TestSetOptionsError` and
`TestPodcastOptionsWithError`: it returns the invalid-URL error without
mutating the feed. -/
def failURLOption : FeedOption := fun f => (f, some FeedError.invalidURL)

/-- An option failing with an unrelated error value. -/
def failOtherOption : FeedOption := fun f => (f, some (FeedError.other "boom"))

/-- The feed `emptyFeed` after `Author "A"`. -/
def authorFeedA : Feed := { channel := { author := "A" } }

/-- C4. `SetOptions` applies the options strictly in the order supplied,
stops at the first failing option, surfaces exactly that option's error — the
result does not depend on the options after the failing one, so they are never
invoked — and when every option succeeds it returns no error with every option
applied (the left-to-right fold of the option mutations). -/
theorem setOptions_order_and_shortCircuit :
    (∀ (f : Feed) (pre post : List FeedOption) (o : FeedOption) (g g' : Feed) (e : FeedError),
        f.setOptions pre = (g, none) → o g = (g', some e) →
        f.setOptions (pre ++ o :: post) = (g', some e)) ∧
    (∀ (f : Feed) (opts : List FeedOption),
        succeedsFrom f opts → f.setOptions opts = (applyAll f opts, none)) := by
  constructor
  · intro f pre post o g g' e hpre ho
    rw [setOptions_append_ok pre f g hpre, setOptions_cons, ho]
  · intro f opts h
    exact setOptions_of_succeeds opts f h

/-- Closed witness for `setOptions_order_and_shortCircuit`: a concrete run in
which `Author "A"` succeeds, the next option fails and the trailing
`Subtitle "S"` is never applied, plus a concrete all-success run. -/
theorem setOptions_order_and_shortCircuit_witness :
    emptyFeed.setOptions ([Author "A"] ++ failOtherOption :: [Subtitle "S"]) =
      (authorFeedA, some (FeedError.other "boom")) ∧
    emptyFeed.setOptions [Author "A", Block] = (applyAll emptyFeed [Author "A", Block], none) :=
  ⟨setOptions_order_and_shortCircuit.1 emptyFeed [Author "A"] [Subtitle "S"] failOtherOption
      authorFeedA authorFeedA (FeedError.other "boom") rfl rfl,
    setOptions_order_and_shortCircuit.2 emptyFeed [Author "A", Block] ⟨rfl, rfl, trivial⟩⟩

/-- A concrete podcast (the test fixture of `TestPodcastOptionsWithError`,
src/unnamed/part_001). -/
def examplePodcast : Podcast :=
  { title := "Options Error Test", description := "Testing options with errors",
    language := "en", link := "https://example.com", copyright := "2024" }

/-- C2 counterexample. `Podcast.Feed` with `[Author "A", failing option]`
fails with the originating error, yet the returned feed is a usable,
partially-configured feed on which the author set by the option applied before
the failing one is visible to the caller — contradicting the claim that
options applied before the failing one are not visible. -/
theorem podcastFeed_partial_config_visible :
    (examplePodcast.feed [Author "A", failURLOption]).2 = some FeedError.invalidURL ∧
    (examplePodcast.feed [Author "A", failURLOption]).1.channel.author = "A" :=
  ⟨rfl, rfl⟩

/-- C2 amended. If any option fails validation, `Podcast.Feed` fails with
the originating error and applies no option after the failing one; however it
still returns the feed built so far, so mutations made by options applied
before the failing one remain visible on the returned feed (the returned state
is exactly the state at the failure).  When every option succeeds, the feed
with all options applied is returned with no error. -/
theorem podcastFeed_error_semantics :
    (∀ (p : Podcast) (pre post : List FeedOption) (o : FeedOption) (g g' : Feed) (e : FeedError),
        p.initialFeed.setOptions pre = (g, none) → o g = (g', some e) →
        p.feed (pre ++ o :: post) = (g', some e)) ∧
    (∀ (p : Podcast) (opts : List FeedOption),
        succeedsFrom p.initialFeed opts →
        p.feed opts = (applyAll p.initialFeed opts, none)) := by
  constructor
  · intro p pre post o g g' e hpre ho
    unfold Podcast.feed
    rw [setOptions_append_ok pre p.initialFeed g hpre, setOptions_cons, ho]
  · intro p opts h
    exact setOptions_of_succeeds opts p.initialFeed h

/-- Closed witness for `podcastFeed_error_semantics`, instantiated on the
`TestPodcastOptionsWithError` fixture. -/
theorem podcastFeed_error_semantics_witness :
    examplePodcast.feed ([] ++ failURLOption :: [Subtitle "S"]) =
      (examplePodcast.initialFeed, some FeedError.invalidURL) ∧
    examplePodcast.feed [Author "A"] =
      (applyAll examplePodcast.initialFeed [Author "A"], none) :=
  ⟨podcastFeed_error_semantics.1 examplePodcast [] [Subtitle "S"] failURLOption
      examplePodcast.initialFeed examplePodcast.initialFeed FeedError.invalidURL rfl rfl,
    podcastFeed_error_semantics.2 examplePodcast [Author "A"] ⟨rfl, trivial⟩⟩

/-- C9. Every string that is not an absolute URL (scheme and host present)
— including the empty string, relative paths and unparseable strings — makes
both `NewFeedURL` and `Image` fail, leaving the feed unmodified; `Image` fails
with the invalid-image error, distinct from the generic invalid-URL error of
`NewFeedURL`, so callers can branch on which field failed. -/
theorem urlOption_validation :
    (∀ (s : String) (f : Feed), isAbsoluteURL s = false →
        NewFeedURL s f = (f, some FeedError.invalidURL) ∧
        Image s f = (f, some FeedError.invalidImage)) ∧
    FeedError.invalidURL ≠ FeedError.invalidImage ∧
    isAbsoluteURL "" = false ∧
    isAbsoluteURL "/relative/path" = false ∧
    isAbsoluteURL "invalid url" = false ∧
    isAbsoluteURL "not-a-url" = false ∧
    isAbsoluteURL "://invalid" = false ∧
    isAbsoluteURL "http://example.com/test" = true := by
  refine ⟨?_, by decide, rfl, rfl, rfl, rfl, rfl, rfl⟩
  intro s f h
  constructor
  · unfold NewFeedURL
    rw [h]
    simp
  · unfold Image
    rw [h]
    simp

/-- Closed witness for `urlOption_validation` at the relative path rejected by
`TestNewFeedURLInvalid` and `TestImageInvalid`. -/
theorem urlOption_validation_witness :
    NewFeedURL "/relative/path" emptyFeed = (emptyFeed, some FeedError.invalidURL) ∧
    Image "/relative/path" emptyFeed = (emptyFeed, some FeedError.invalidImage) :=
  urlOption_validation.1 "/relative/path" emptyFeed rfl

/-- C8. `AddItemWithCapacity` is observationally `AddItem` for every
podcast state, item and `expectedTotal` (including hints smaller than the
current length): the previous episodes are kept unchanged and in order with
the new item appended last, and the count grows by one. -/
theorem addItemWithCapacity_eq_addItem (p : Podcast) (item : Item) (expectedTotal : Nat) :
    (p.addItemWithCapacity item expectedTotal).items = (p.addItem item).items ∧
    (p.addItemWithCapacity item expectedTotal).items = p.items ++ [item] ∧
    (p.addItemWithCapacity item expectedTotal).getItemCount = p.getItemCount + 1 := by
  unfold Podcast.addItemWithCapacity Podcast.addItem Podcast.getItemCount
  split <;> simp

/-! ### The serializer

`encoding/xml` marshals this fixed schema deterministically: elements are
emitted in Go struct field order, `omitempty` strings and zero ints are
dropped, nil pointers are skipped, `,cdata` fields become CDATA sections and
all other character data and attribute values go through `xml.EscapeText`.
The embedding makes that elaboration explicit: each entity maps to a tree of
`XNode`s, and rendering a tree produces the markup.  The encoder's cosmetic
indentation (`Indent("", "  ")`) is not reproduced — no verified property
depends on inter-element whitespace — so `renderNode` emits the elements,
attributes and character data without inserted whitespace. -/

inductive XNode where
  | elem (name : String) (attrs : List (String × String)) (children : List XNode)
  | text (s : String)
  | cdata (s : String)

/-- The per-character substitution of xml.EscapeText substitution (the escapes relevant to
strings: the five markup characters and the three escaped whitespace
characters). -/
def escapeChar (c : Char) : List Char :=
  if c = '"' then "&#34;".data
  else if c = '\'' then "&#39;".data
  else if c = '&' then "&amp;".data
  else if c = '<' then "&lt;".data
  else if c = '>' then "&gt;".data
  else if c = '\t' then "&#x9;".data
  else if c = '\n' then "&#xA;".data
  else if c = '\r' then "&#xD;".data
  else [c]

def escapeList : List Char → List Char
  | [] => []
  | c :: cs => escapeChar c ++ escapeList cs

def escapeString (s : String) : String := ⟨escapeList s.data⟩

def renderAttr (a : String × String) : String :=
  " " ++ a.1 ++ "=\"" ++ escapeString a.2 ++ "\""

mutual

def renderNode : XNode → String
  | .text s => escapeString s
  | .cdata s => "<![CDATA[" ++ s ++ "]]>"
  | .elem n attrs children =>
    "<" ++ n ++ String.join (attrs.map renderAttr) ++ ">" ++ renderNodes children ++ "</" ++ n ++ ">"

def renderNodes : List XNode → String
  | [] => ""
  | x :: xs => renderNode x ++ renderNodes xs

end

/-- An always-emitted element holding character data (a Go string field with no
`omitempty`). -/
def textElem (name val : String) : XNode := .elem name [] [.text val]

/-- An `omitempty` string field, and likewise the streaming `writeElement`
helper: no element when the value is empty. -/
def optTextElem (name val : String) : List XNode :=
  if val = "" then [] else [textElem name val]

/-- An optional `,cdata` field: a nil pointer is skipped, otherwise the value
is emitted verbatim in a CDATA section. -/
def cdataElemOpt (name : String) : Option CDATAText → List XNode
  | none => []
  | some t => [.elem name [] [.cdata t.value]]

def ownerNodes : Option ItunesOwner → List XNode
  | none => []
  | some o => [.elem "itunes:owner" [] [textElem "itunes:name" o.name, textElem "itunes:email" o.email]]

def imageNodes : Option ItunesImage → List XNode
  | none => []
  | some im => [.elem "itunes:image" [("href", im.href)] []]

def enclosureNodes : Option Enclosure → List XNode
  | none => []
  | some e =>
    [.elem "enclosure"
      ([("url", e.url)] ++ (if e.length = "" then [] else [("length", e.length)]) ++
        [("type", e.mimeType)]) []]

def pubDateNodes : Option String → List XNode
  | none => []
  | some d => [textElem "pubDate" d]

def durationNodes : Option Nat → List XNode
  | none => []
  | some n => [textElem "itunes:duration" (formatDuration n)]

def orderNodes (n : Int) : List XNode :=
  if n = 0 then [] else [textElem "itunes:order" (toString n)]

mutual

def categoryNode : ItunesCategory → XNode
  | .mk t cats => .elem "itunes:category" [("text", t)] (categoryNodes cats)

def categoryNodes : List ItunesCategory → List XNode
  | [] => []
  | c :: cs => categoryNode c :: categoryNodes cs

end

/-- The `<item>` element, children in `Item` struct field order. -/
def itemNode (i : Item) : XNode :=
  .elem "item" []
    ([textElem "title" i.title, textElem "guid" i.guid]
      ++ pubDateNodes i.pubDate
      ++ cdataElemOpt "description" i.description
      ++ cdataElemOpt "content:encoded" i.contentEncoded
      ++ optTextElem "itunes:author" i.author
      ++ optTextElem "itunes:block" i.block
      ++ durationNodes i.durationSeconds
      ++ optTextElem "itunes:explicit" i.explicit
      ++ optTextElem "itunes:isClosedCaptioned" i.closedCaptioned
      ++ orderNodes i.order
      ++ optTextElem "itunes:subtitle" i.subtitle
      ++ cdataElemOpt "itunes:summary" i.summary
      ++ enclosureNodes i.enclosure
      ++ imageNodes i.image)

/-- The `<channel>` children as the whole-document marshaller emits them:
`Channel` struct field order — the five basic elements always (they carry no
`omitempty`), then the `omitempty` iTunes strings, summary, owner, image, then
the items, then the categories. -/
def wholeChannelNodes (c : Channel) : List XNode :=
  [textElem "title" c.title, textElem "link" c.link, textElem "copyright" c.copyright,
    textElem "language" c.language, textElem "description" c.description]
    ++ optTextElem "itunes:author" c.author
    ++ optTextElem "itunes:block" c.block
    ++ optTextElem "itunes:explicit" c.explicit
    ++ optTextElem "itunes:complete" c.complete
    ++ optTextElem "itunes:new-feed-url" c.newFeedURL
    ++ optTextElem "itunes:subtitle" c.subtitle
    ++ cdataElemOpt "itunes:summary" c.summary
    ++ ownerNodes c.owner
    ++ imageNodes c.image
    ++ c.items.map itemNode
    ++ categoryNodes c.categories

/-- The `<channel>` children as `StreamWrite` emits them
(src/feed.go lines 297-433): `writeBasicChannelMetadata` (title, link,
description, language, copyright — `writeElement` drops empty values), then
`writeItunesChannelMetadata`, then summary, owner, image and the categories,
then the items streamed one by one. -/
def streamChannelNodes (c : Channel) : List XNode :=
  optTextElem "title" c.title
    ++ optTextElem "link" c.link
    ++ optTextElem "description" c.description
    ++ optTextElem "language" c.language
    ++ optTextElem "copyright" c.copyright
    ++ optTextElem "itunes:author" c.author
    ++ optTextElem "itunes:block" c.block
    ++ optTextElem "itunes:explicit" c.explicit
    ++ optTextElem "itunes:complete" c.complete
    ++ optTextElem "itunes:new-feed-url" c.newFeedURL
    ++ optTextElem "itunes:subtitle" c.subtitle
    ++ cdataElemOpt "itunes:summary" c.summary
    ++ ownerNodes c.owner
    ++ imageNodes c.image
    ++ categoryNodes c.categories
    ++ c.items.map itemNode

/-- The whole document tree: the `<rss>` root with its two namespace
declarations and version attribute around the `<channel>`. -/
def feedNode (f : Feed) : XNode :=
  .elem "rss"
    [("xmlns:itunes", f.itunesXMLNS), ("xmlns:content", f.contentXMLNS), ("version", f.version)]
    [.elem "channel" [] (wholeChannelNodes f.channel)]

/-- The constant xml.Header. -/
def xmlHeader : String := "<?xml version=\"1.0\" encoding=\"UTF-8\"?>\n"

/-- Feed.Write: the XML header, then the encoded document, to the writer. -/
def Feed.write (f : Feed) : String := xmlHeader ++ renderNode (feedNode f)

/-- WriteOptions (src/feed.go lines 214-219).  BufferSize is a Go `int`,
so negative values are representable. -/
structure WriteOptions where
  bufferSize : Int := 0
  usePool : Bool := false

/-- Feed.WriteWithOptions (src/feed.go lines 222-260): pick a pooled buffer
(reset before use) when `UsePool`, else a fresh pre-grown buffer when
`BufferSize > 0`, else write directly; write the header and the encoded
document into the chosen destination; finally copy the buffer, if any, to the
writer.  The returned string is what the writer received. -/
def Feed.writeWithOptions (f : Feed) (opts : WriteOptions) : String :=
  let buf : Option String :=
    if opts.usePool then some ""
    else if opts.bufferSize > 0 then some ""
    else none
  match buf with
  | some b =>
    let b := b ++ xmlHeader
    let b := b ++ renderNode (feedNode f)
    "" ++ b
  | none => ("" ++ xmlHeader) ++ renderNode (feedNode f)

/-- Feed.StreamWrite (src/feed.go lines 400-433): header and opening tags
written by hand (the namespace attribute values are written raw), then the
channel metadata and items element by element, then the closing tags. -/
def Feed.streamWrite (f : Feed) : String :=
  xmlHeader
    ++ "<rss xmlns:itunes=\"" ++ f.itunesXMLNS ++ "\" xmlns:content=\"" ++ f.contentXMLNS
    ++ "\" version=\"" ++ f.version ++ "\">"
    ++ "\n  <channel>\n"
    ++ renderNodes (streamChannelNodes f.channel)
    ++ "\n  </channel>\n</rss>\n"

/-- C6. For every feed and every combination of `WriteOptions` (`UsePool`
true or false, any `BufferSize` including zero and negative values),
`WriteWithOptions` hands the destination exactly the bytes `Write` produces;
pooling and the size hint change allocation behaviour only. -/
theorem writeWithOptions_eq_write (f : Feed) (opts : WriteOptions) :
    f.writeWithOptions opts = f.write := by
  unfold Feed.writeWithOptions Feed.write
  by_cases h1 : opts.usePool
  · simp [h1, String.empty_append]
  · by_cases h2 : opts.bufferSize > 0 <;> simp [h1, h2, String.empty_append]

/-! ### Channel element order -/

def nodeName : XNode → String
  | .elem n _ _ => n
  | _ => ""

/-- The names of the `<channel>` children the whole-document marshaller
emits, in order. -/
def channelElementNames (c : Channel) : List String :=
  (wholeChannelNodes c).map nodeName

/-- The names of the `<channel>` children `StreamWrite` emits, in order. -/
def streamElementNames (c : Channel) : List String :=
  (streamChannelNodes c).map nodeName

theorem map_nodeName_optTextElem (n v : String) :
    (optTextElem n v).map nodeName = if v = "" then [] else [n] := by
  unfold optTextElem
  split <;> simp [nodeName, textElem]

theorem map_nodeName_cdataElemOpt (n : String) (o : Option CDATAText) :
    (cdataElemOpt n o).map nodeName = match o with | none => [] | some _ => [n] := by
  cases o <;> simp [cdataElemOpt, nodeName]

theorem map_nodeName_ownerNodes (o : Option ItunesOwner) :
    (ownerNodes o).map nodeName = match o with | none => [] | some _ => ["itunes:owner"] := by
  cases o <;> simp [ownerNodes, nodeName]

theorem map_nodeName_imageNodes (o : Option ItunesImage) :
    (imageNodes o).map nodeName = match o with | none => [] | some _ => ["itunes:image"] := by
  cases o <;> simp [imageNodes, nodeName]

theorem nodeName_itemNode (i : Item) : nodeName (itemNode i) = "item" := rfl

theorem nodeName_categoryNode (c : ItunesCategory) :
    nodeName (categoryNode c) = "itunes:category" := by
  cases c
  rfl

theorem map_nodeName_categoryNodes (cs : List ItunesCategory) :
    (categoryNodes cs).map nodeName = cs.map fun _ => "itunes:category" := by
  induction cs with
  | nil => rfl
  | cons c cs ih => simp [categoryNodes, nodeName_categoryNode, ih]

theorem map_nodeName_itemNodes (items : List Item) :
    (items.map itemNode).map nodeName = items.map fun _ => "item" := by
  induction items with
  | nil => rfl
  | cons i is ih => simp [nodeName_itemNode, ih]

/-- A fully populated channel with one item and one category. -/
def exChannel : Channel :=
  { title := "t", link := "http://example.com", copyright := "2024", language := "en",
    description := "desc", author := "a", block := "yes", explicit := "yes",
    complete := "yes", newFeedURL := "http://example.com/new", subtitle := "sub",
    summary := some ⟨"sum"⟩, owner := some ⟨"o", "o@example.com"⟩,
    image := some ⟨"http://example.com/i.jpg"⟩,
    items := [{ title := "i1", guid := "http://example.com/1" }],
    categories := [.mk "Technology" []] }

/-- C3 counterexample. On a channel with every field populated, the
whole-document marshaller emits `copyright` before `language` before
`description` (the struct field order) and the `item` element before the
category element — not the claimed order (description, language, copyright,
…, categories, then episodes). -/
theorem wholeChannel_order_not_as_claimed :
    channelElementNames exChannel =
      ["title", "link", "copyright", "language", "description", "itunes:author",
        "itunes:block", "itunes:explicit", "itunes:complete", "itunes:new-feed-url",
        "itunes:subtitle", "itunes:summary", "itunes:owner", "itunes:image",
        "item", "itunes:category"] ∧
    channelElementNames exChannel ≠
      ["title", "link", "description", "language", "copyright", "itunes:author",
        "itunes:block", "itunes:explicit", "itunes:complete", "itunes:new-feed-url",
        "itunes:subtitle", "itunes:summary", "itunes:owner", "itunes:image",
        "itunes:category", "item"] :=
  ⟨rfl, by decide⟩

/-- C3 amended. For every feed, the whole-document serializer emits the
channel children in exactly this order: title, link, copyright, language,
description (these five always, even when empty), then among the fields that
are present author, block, explicit, completion, redirect URL, subtitle,
summary, owner, image, then the episodes, then the categories. -/
theorem wholeChannel_element_order (c : Channel) :
    channelElementNames c =
      ["title", "link", "copyright", "language", "description"]
        ++ (if c.author = "" then [] else ["itunes:author"])
        ++ (if c.block = "" then [] else ["itunes:block"])
        ++ (if c.explicit = "" then [] else ["itunes:explicit"])
        ++ (if c.complete = "" then [] else ["itunes:complete"])
        ++ (if c.newFeedURL = "" then [] else ["itunes:new-feed-url"])
        ++ (if c.subtitle = "" then [] else ["itunes:subtitle"])
        ++ (match c.summary with | none => [] | some _ => ["itunes:summary"])
        ++ (match c.owner with | none => [] | some _ => ["itunes:owner"])
        ++ (match c.image with | none => [] | some _ => ["itunes:image"])
        ++ (c.items.map fun _ => "item")
        ++ (c.categories.map fun _ => "itunes:category") := by
  unfold channelElementNames wholeChannelNodes
  simp only [List.map_append, map_nodeName_optTextElem, map_nodeName_cdataElemOpt,
    map_nodeName_ownerNodes, map_nodeName_imageNodes, map_nodeName_categoryNodes,
    map_nodeName_itemNodes, List.map_cons, List.map_nil]
  simp [nodeName, textElem]

/-! ### Escaping versus CDATA -/

theorem escapeChar_no_markup (x c : Char) (hc : c ∈ escapeChar x) :
    c ≠ '<' ∧ c ≠ '>' ∧ c ≠ '"' ∧ c ≠ '\'' := by
  unfold escapeChar at hc
  repeat' split at hc
  all_goals refine ⟨?_, ?_, ?_, ?_⟩ <;> rintro rfl <;>
    first
      | exact absurd hc (by decide)
      | (simp only [List.mem_singleton] at hc; exact absurd hc.symm (by assumption))

theorem escapeList_no_markup (l : List Char) (c : Char) (hc : c ∈ escapeList l) :
    c ≠ '<' ∧ c ≠ '>' ∧ c ≠ '"' ∧ c ≠ '\'' := by
  induction l with
  | nil => cases hc
  | cons x xs ih =>
    rw [escapeList, List.mem_append] at hc
    rcases hc with hc | hc
    · exact escapeChar_no_markup x c hc
    · exact ih hc

/-- Does `text` begin with `pat`? -/
def listStarts : List Char → List Char → Bool
  | [], _ => true
  | _ :: _, [] => false
  | p :: ps, c :: cs => p == c && listStarts ps cs

/-- Does `pat` occur as a contiguous segment of `text`? -/
def hasSeg : List Char → List Char → Bool
  | pat, [] => listStarts pat []
  | pat, c :: cs => listStarts pat (c :: cs) || hasSeg pat cs

/-- The spec's escaping example feed: a plain-text title and a rich-text
summary both holding the raw value `Episode <1> & "test"`. -/
def escFeed : Feed :=
  { channel :=
      { title := "Episode <1> & \"test\"", link := "http://example.com",
        copyright := "2024", language := "en", description := "desc",
        summary := some ⟨"Episode <1> & \"test\""⟩ } }

/-- The escaped form the title must take in the serialized output. -/
def escTitleSeg : String := "<title>Episode &lt;1&gt; &amp; &#34;test&#34;</title>"

/-- The verbatim CDATA block the rich-text summary must take. -/
def cdataSummarySeg : String :=
  "<itunes:summary><![CDATA[Episode <1> & \"test\"]]></itunes:summary>"

/-- C5. Plain-text values are rendered through the escaping substitution,
which replaces exactly `<`, `>`, `&`, `"`, `'` (and the whitespace escapes
`\t`, `\n`, `\r`) by their XML references and leaves every other character
unchanged, so no raw `<`, `>`, `"` or `'` survives in escaped output; rich-text
(`CDATAText`) values are emitted verbatim inside a `<![CDATA[ ... ]]>` block
with no substitution; and on the spec's example the escaped title and the
verbatim CDATA summary appear identically in the output of all three
strategies (`Write`, `WriteWithOptions`, `StreamWrite`). -/
theorem escaping_vs_cdata :
    (∀ s : String, renderNode (XNode.text s) = escapeString s) ∧
    (∀ s : String, renderNode (XNode.cdata s) = "<![CDATA[" ++ s ++ "]]>") ∧
    (escapeChar '<' = "&lt;".data ∧ escapeChar '>' = "&gt;".data ∧
      escapeChar '&' = "&amp;".data ∧ escapeChar '"' = "&#34;".data ∧
      escapeChar '\'' = "&#39;".data) ∧
    (∀ c : Char, c ∉ (['<', '>', '&', '"', '\''] : List Char) →
      c ∉ (['\t', '\n', '\r'] : List Char) → escapeChar c = [c]) ∧
    (∀ s : String, ∀ c ∈ (escapeString s).data, c ≠ '<' ∧ c ≠ '>' ∧ c ≠ '"' ∧ c ≠ '\'') ∧
    (hasSeg escTitleSeg.data escFeed.write.data = true ∧
      hasSeg cdataSummarySeg.data escFeed.write.data = true) ∧
    (hasSeg escTitleSeg.data (escFeed.writeWithOptions { usePool := true }).data = true ∧
      hasSeg cdataSummarySeg.data (escFeed.writeWithOptions { usePool := true }).data = true) ∧
    (hasSeg escTitleSeg.data escFeed.streamWrite.data = true ∧
      hasSeg cdataSummarySeg.data escFeed.streamWrite.data = true) := by
  refine ⟨fun s => rfl, fun s => rfl, ⟨rfl, rfl, rfl, rfl, rfl⟩, ?_, ?_, ?_, ?_, ?_⟩
  · intro c hm hw
    simp only [List.mem_cons, List.mem_singleton, not_or] at hm hw
    obtain ⟨h1, h2, h3, h4, h5⟩ := hm
    obtain ⟨h6, h7, h8⟩ := hw
    simp [escapeChar, h1, h2, h3, h4, h5, h6, h7, h8]
  · intro s c hc
    exact escapeList_no_markup s.data c hc
  · exact ⟨by set_option maxRecDepth 100000 in decide, by set_option maxRecDepth 100000 in decide⟩
  · exact ⟨by set_option maxRecDepth 100000 in decide, by set_option maxRecDepth 100000 in decide⟩
  · exact ⟨by set_option maxRecDepth 100000 in decide, by set_option maxRecDepth 100000 in decide⟩

/-- Closed witness for `escaping_vs_cdata`: the non-special character `x` is
preserved, and the character `a` drawn from the escaping of `"a<b"` is none of
the four markup characters. -/
theorem escaping_vs_cdata_witness :
    escapeChar 'x' = ['x'] ∧ ('a' ≠ '<' ∧ 'a' ≠ '>' ∧ 'a' ≠ '"' ∧ 'a' ≠ '\'') :=
  ⟨escaping_vs_cdata.2.2.2.1 'x' (by decide) (by decide),
    escaping_vs_cdata.2.2.2.2.1 "a<b" 'a' (by decide)⟩

/-! ### Streaming versus whole-document output -/

theorem nodeName_textElem (n v : String) : nodeName (textElem n v) = n := rfl

theorem filter_item_optTextElem (n v : String) (h : (n == "item") = false) :
    (optTextElem n v).filter (fun x => nodeName x == "item") = [] := by
  unfold optTextElem textElem
  split <;> simp [List.filter_cons, nodeName, h]

theorem filter_item_cdataElemOpt (n : String) (o : Option CDATAText)
    (h : (n == "item") = false) :
    (cdataElemOpt n o).filter (fun x => nodeName x == "item") = [] := by
  cases o <;> simp [cdataElemOpt, List.filter_cons, nodeName, h]

theorem filter_item_ownerNodes (o : Option ItunesOwner) :
    (ownerNodes o).filter (fun x => nodeName x == "item") = [] := by
  cases o <;> simp [ownerNodes, List.filter_cons, nodeName]

theorem filter_item_imageNodes (o : Option ItunesImage) :
    (imageNodes o).filter (fun x => nodeName x == "item") = [] := by
  cases o <;> simp [imageNodes, List.filter_cons, nodeName]

theorem filter_item_categoryNodes (cs : List ItunesCategory) :
    (categoryNodes cs).filter (fun x => nodeName x == "item") = [] := by
  induction cs with
  | nil => rfl
  | cons c cs ih => simp [categoryNodes, List.filter_cons, nodeName_categoryNode, ih]

theorem filter_item_itemNodes (items : List Item) :
    (items.map itemNode).filter (fun x => nodeName x == "item") = items.map itemNode := by
  induction items with
  | nil => rfl
  | cons i is ih => simp [List.filter_cons, nodeName_itemNode, ih]

theorem perm_head5 {α : Type} (a b c d e : α) {r1 r2 : List α} (h : r1.Perm r2) :
    (a :: b :: c :: d :: e :: r1).Perm (a :: b :: e :: d :: c :: r2) := by
  refine .cons a (.cons b ?_)
  have h1 : (c :: d :: e :: r1).Perm (e :: d :: c :: r1) :=
    (List.Perm.swap d c (e :: r1)).trans
      ((List.Perm.cons d (List.Perm.swap e c r1)).trans (List.Perm.swap e d (c :: r1)))
  exact h1.trans (.cons e (.cons d (.cons c h)))

/-- C7 counterexample. On the fully populated channel, `StreamWrite` emits
the channel children in a different order than the whole-document strategy
(description/language/copyright are reversed and the categories precede the
items), so the streamed document is not the whole-document output up to
whitespace: both the element-name sequences and the rendered markup of the
channel children (which contains no inserted whitespace) differ. -/
theorem streamWrite_differs_from_write :
    streamElementNames exChannel ≠ channelElementNames exChannel ∧
    renderNodes (streamChannelNodes exChannel) ≠ renderNodes (wholeChannelNodes exChannel) :=
  ⟨by decide, by set_option maxRecDepth 100000 in decide⟩

/-- C7 amended. For every channel whose five basic fields are nonempty,
`StreamWrite` emits exactly the same multiset of channel child elements — the
same elements with the same text content and attributes, a permutation of the
whole-document children — and both strategies emit the episode elements
identically and in the same append order; the channel metadata order differs
between the two strategies (whole-document: title, link, copyright, language,
description, …, items, categories; streaming: title, link, description,
language, copyright, …, categories, items), and a basic field that is empty is
emitted as an empty element by the whole-document strategy but omitted by
streaming. -/
theorem streamWrite_whole_equiv (c : Channel)
    (ht : c.title ≠ "") (hl : c.link ≠ "") (hd : c.description ≠ "")
    (hg : c.language ≠ "") (hcp : c.copyright ≠ "") :
    (streamChannelNodes c).Perm (wholeChannelNodes c) ∧
    (streamChannelNodes c).filter (fun x => nodeName x == "item") = c.items.map itemNode ∧
    (wholeChannelNodes c).filter (fun x => nodeName x == "item") = c.items.map itemNode := by
  refine ⟨?_, ?_, ?_⟩
  · have hT : optTextElem "title" c.title = [textElem "title" c.title] := by
      simp [optTextElem, ht]
    have hL : optTextElem "link" c.link = [textElem "link" c.link] := by
      simp [optTextElem, hl]
    have hD : optTextElem "description" c.description =
        [textElem "description" c.description] := by
      simp [optTextElem, hd]
    have hG : optTextElem "language" c.language = [textElem "language" c.language] := by
      simp [optTextElem, hg]
    have hC : optTextElem "copyright" c.copyright = [textElem "copyright" c.copyright] := by
      simp [optTextElem, hcp]
    unfold streamChannelNodes wholeChannelNodes
    rw [hT, hL, hD, hG, hC]
    simp only [List.cons_append, List.singleton_append, List.nil_append, List.append_assoc]
    exact perm_head5 _ _ _ _ _ (List.Perm.append_left _ (List.Perm.append_left _
      (List.Perm.append_left _ (List.Perm.append_left _ (List.Perm.append_left _
      (List.Perm.append_left _ (List.Perm.append_left _ (List.Perm.append_left _
      (List.Perm.append_left _ (List.perm_append_comm))))))))))
  · unfold streamChannelNodes
    simp [List.filter_append, filter_item_optTextElem, filter_item_cdataElemOpt,
      filter_item_ownerNodes, filter_item_imageNodes, filter_item_categoryNodes,
      filter_item_itemNodes]
  · unfold wholeChannelNodes
    simp [List.filter_append, List.filter_cons, nodeName_textElem,
      filter_item_optTextElem, filter_item_cdataElemOpt,
      filter_item_ownerNodes, filter_item_imageNodes, filter_item_categoryNodes,
      filter_item_itemNodes]

/-- Closed witness for `streamWrite_whole_equiv` at the fully populated
channel. -/
theorem streamWrite_whole_equiv_witness :
    (streamChannelNodes exChannel).Perm (wholeChannelNodes exChannel) ∧
    (streamChannelNodes exChannel).filter (fun x => nodeName x == "item") =
      exChannel.items.map itemNode ∧
    (wholeChannelNodes exChannel).filter (fun x => nodeName x == "item") =
      exChannel.items.map itemNode :=
  streamWrite_whole_equiv exChannel (by decide) (by decide) (by decide) (by decide) (by decide)

/-! ### `GetItems` snapshot semantics (src/podcast.go lines 53-62)

The Go slice `items []*Item` holds pointers.  To embed the sharing semantics,
the heap is explicit: item pointers are addresses into `itemHeap`, and each
`[]*Item` slice is an identifier of a backing array in `arrays`.  A podcast's
`items` field is the identifier of its backing array.  `GetItems` allocates a
fresh backing array (`make` + `copy`) holding the same addresses and returns
its identifier; `GetItemsSlice` returns the podcast's own identifier.
Replacing an entry of a slice writes its backing array; mutating an `Item`'s
fields through a pointer writes `itemHeap`. -/

structure ItemStore where
  itemHeap : List Item
  arrays : List (List Nat)

structure PodcastRef where
  itemsArr : Nat

def ItemStore.readArr (s : ItemStore) (a : Nat) : List Nat := s.arrays.getD a []

def ItemStore.readItem (s : ItemStore) (a : Nat) : Item := s.itemHeap.getD a {}

/-- GetItems: allocate a fresh array, copy the podcast's entries into it,
return (new store, new slice id). -/
def getItems (s : ItemStore) (p : PodcastRef) : ItemStore × Nat :=
  ({ s with arrays := s.arrays ++ [s.readArr p.itemsArr] }, s.arrays.length)

/-- GetItemsSlice: the podcast's own backing array, aliased. -/
def getItemsSlice (s : ItemStore) (p : PodcastRef) : Nat := p.itemsArr

/-- GetItemCount read through the heap. -/
def getItemCountRef (s : ItemStore) (p : PodcastRef) : Nat := (s.readArr p.itemsArr).length

/-- Replace entry `i` of slice `sid` with the pointer `addr`
(e.g. `items[0] = nil` / reordering writes on a returned slice). -/
def sliceSetEntry (s : ItemStore) (sid i addr : Nat) : ItemStore :=
  { s with arrays := s.arrays.set sid ((s.readArr sid).set i addr) }

/-- Mutate the fields of the `Item` behind pointer `addr`. -/
def itemWrite (s : ItemStore) (addr : Nat) (it : Item) : ItemStore :=
  { s with itemHeap := s.itemHeap.set addr it }

/-- The podcast's episode sequence as observed through the heap. -/
def podcastItemsView (s : ItemStore) (p : PodcastRef) : List Item :=
  (s.readArr p.itemsArr).map fun a => s.readItem a

/-- C10. `GetItems` returns a freshly allocated slice holding the same
item pointers: replacing entries of the returned slice leaves the podcast's
episode sequence and `GetItemCount` unchanged, while mutating the fields of an
`Item` through a pointer shared with the returned slice is visible in the
podcast's observed sequence. -/
theorem getItems_snapshot_semantics (s : ItemStore) (p : PodcastRef)
    (hp : p.itemsArr < s.arrays.length) :
    (getItems s p).2 ≠ p.itemsArr ∧
    (getItems s p).1.readArr (getItems s p).2 = s.readArr p.itemsArr ∧
    podcastItemsView (getItems s p).1 p = podcastItemsView s p ∧
    (∀ i addr,
      podcastItemsView (sliceSetEntry (getItems s p).1 (getItems s p).2 i addr) p =
          podcastItemsView s p ∧
        getItemCountRef (sliceSetEntry (getItems s p).1 (getItems s p).2 i addr) p =
          getItemCountRef s p) ∧
    (∀ addr it, addr < s.itemHeap.length →
      podcastItemsView (itemWrite (getItems s p).1 addr it) p =
        (s.readArr p.itemsArr).map fun a => if a = addr then it else s.readItem a) := by
  have harr : ∀ x : List Nat, (s.arrays ++ [x]).getD p.itemsArr [] = s.arrays.getD p.itemsArr [] := by
    intro x
    simp [List.getD_eq_getElem?_getD, List.getElem?_append, hp]
  refine ⟨by simp [getItems]; omega, ?_, ?_, ?_, ?_⟩
  · simp [getItems, ItemStore.readArr, List.getD_eq_getElem?_getD, List.getElem?_append,
      Nat.lt_irrefl]
  · simp [getItems, podcastItemsView, ItemStore.readArr, ItemStore.readItem,
      List.getD_eq_getElem?_getD, List.getElem?_append, hp]
  · intro i addr
    constructor
    · simp [sliceSetEntry, getItems, podcastItemsView, ItemStore.readArr, ItemStore.readItem,
        List.getD_eq_getElem?_getD, List.getElem?_append, hp,
        List.getElem?_set_ne (by omega : s.arrays.length ≠ p.itemsArr)]
    · simp [sliceSetEntry, getItems, getItemCountRef, ItemStore.readArr,
        List.getD_eq_getElem?_getD, List.getElem?_append, hp,
        List.getElem?_set_ne (by omega : s.arrays.length ≠ p.itemsArr)]
  · intro addr it haddr
    simp only [itemWrite, getItems, podcastItemsView, ItemStore.readArr, ItemStore.readItem]
    rw [harr]
    refine List.map_congr_left ?_
    intro a _
    by_cases ha : a = addr
    · subst ha
      simp [List.getD_eq_getElem?_getD, List.getElem?_set_eq_of_lt _ haddr]
    · simp [List.getD_eq_getElem?_getD, List.getElem?_set_ne (fun h => ha h.symm), ha]

/-- A concrete two-item store for the closed witness. -/
def exStore : ItemStore :=
  { itemHeap := [{ title := "Item 1" }, { title := "Item 2" }], arrays := [[0, 1]] }

def exPodcastRef : PodcastRef := ⟨0⟩

/-- Closed witness for `getItems_snapshot_semantics` on a concrete store. -/
theorem getItems_snapshot_semantics_witness :
    (getItems exStore exPodcastRef).2 ≠ exPodcastRef.itemsArr ∧
    (getItems exStore exPodcastRef).1.readArr (getItems exStore exPodcastRef).2 =
      exStore.readArr exPodcastRef.itemsArr ∧
    podcastItemsView (getItems exStore exPodcastRef).1 exPodcastRef =
      podcastItemsView exStore exPodcastRef ∧
    (∀ i addr,
      podcastItemsView
            (sliceSetEntry (getItems exStore exPodcastRef).1 (getItems exStore exPodcastRef).2
              i addr) exPodcastRef =
          podcastItemsView exStore exPodcastRef ∧
        getItemCountRef
            (sliceSetEntry (getItems exStore exPodcastRef).1 (getItems exStore exPodcastRef).2
              i addr) exPodcastRef =
          getItemCountRef exStore exPodcastRef) ∧
    (∀ addr it, addr < exStore.itemHeap.length →
      podcastItemsView (itemWrite (getItems exStore exPodcastRef).1 addr it) exPodcastRef =
        (exStore.readArr exPodcastRef.itemsArr).map
          fun a => if a = addr then it else exStore.readItem a) :=
  getItems_snapshot_semantics exStore exPodcastRef (by decide)

end Podcasts
